import Mathlib

/-!
# Verification of the clipboard-indicator history engine (src/registry.js)

Shallow embedding of the clipboard history engine of this repository:
the `ClipboardEntry` data model, the manifest serialization used by
`Registry.read` / `Registry.write`, the workspaces configuration loader
`Registry.loadWorkspacesConfig`, and the in-memory history operations of
the indicator (`_refreshIndicator`, `_removeOldestEntries`,
`_favoriteToggle`, `_updateCache`, `#addToCache`, `_switchWorkspace`).

JavaScript strings are modelled as Lean `String` (a list of Unicode
scalar values: every string this program manipulates comes from
`TextDecoder`, from string literals, or from `JSON.parse` of data this
program wrote, so no lone surrogates arise).  Byte sequences
(`Uint8Array`) are modelled as `List Nat` with every element below 256.
-/

/-! ## UTF-8 codec

Models the JS `TextEncoder().encode` / `TextDecoder().decode` pair used by
`ClipboardEntry` (src/registry.js lines 337, 410) and `Registry`
(lines 47-48, 76-77).  The decoder follows the WHATWG UTF-8 decode
algorithm in its default non-fatal mode: malformed byte windows emit
U+FFFD and restart at the offending byte.
-/

/-- The replacement character U+FFFD produced by a non-fatal `TextDecoder`
on malformed input. -/
def replacementChar : Char := Char.ofNat 0xFFFD

/-- UTF-8 encoding of one Unicode scalar value, as `TextEncoder` emits it. -/
def utf8EncodeChar (c : Char) : List Nat :=
  if c.toNat < 0x80 then
    [c.toNat]
  else if c.toNat < 0x800 then
    [0xC0 + c.toNat / 0x40, 0x80 + c.toNat % 0x40]
  else if c.toNat < 0x10000 then
    [0xE0 + c.toNat / 0x1000, 0x80 + c.toNat / 0x40 % 0x40, 0x80 + c.toNat % 0x40]
  else
    [0xF0 + c.toNat / 0x40000, 0x80 + c.toNat / 0x1000 % 0x40,
      0x80 + c.toNat / 0x40 % 0x40, 0x80 + c.toNat % 0x40]

/-- `TextEncoder().encode` on a whole string. -/
def utf8Encode (s : List Char) : List Nat :=
  (s.map utf8EncodeChar).flatten

/-- `TextDecoder().decode` (non-fatal): WHATWG UTF-8 decoding with U+FFFD
replacement.  Lead bytes carry the continuation windows that exclude
overlong forms, surrogates and values above U+10FFFF; on a malformed
continuation the decoder emits U+FFFD and resumes at that byte. -/
def utf8Decode : List Nat → List Char
  | [] => []
  | b :: bs =>
    if b < 0x80 then
      Char.ofNat b :: utf8Decode bs
    else if 0xC2 ≤ b ∧ b ≤ 0xDF then
      match bs with
      | [] => [replacementChar]
      | b2 :: bs2 =>
        if 0x80 ≤ b2 ∧ b2 ≤ 0xBF then
          Char.ofNat ((b - 0xC0) * 0x40 + (b2 - 0x80)) :: utf8Decode bs2
        else
          replacementChar :: utf8Decode (b2 :: bs2)
    else if 0xE0 ≤ b ∧ b ≤ 0xEF then
      match bs with
      | [] => [replacementChar]
      | b2 :: bs2 =>
        if (if b = 0xE0 then 0xA0 else 0x80) ≤ b2 ∧
            b2 ≤ (if b = 0xED then 0x9F else 0xBF) then
          match bs2 with
          | [] => [replacementChar, replacementChar]
          | b3 :: bs3 =>
            if 0x80 ≤ b3 ∧ b3 ≤ 0xBF then
              Char.ofNat ((b - 0xE0) * 0x1000 + (b2 - 0x80) * 0x40 + (b3 - 0x80)) ::
                utf8Decode bs3
            else
              replacementChar :: utf8Decode (b3 :: bs3)
        else
          replacementChar :: utf8Decode (b2 :: bs2)
    else if 0xF0 ≤ b ∧ b ≤ 0xF4 then
      match bs with
      | [] => [replacementChar]
      | b2 :: bs2 =>
        if (if b = 0xF0 then 0x90 else 0x80) ≤ b2 ∧
            b2 ≤ (if b = 0xF4 then 0x8F else 0xBF) then
          match bs2 with
          | [] => [replacementChar, replacementChar]
          | b3 :: bs3 =>
            if 0x80 ≤ b3 ∧ b3 ≤ 0xBF then
              match bs3 with
              | [] => [replacementChar, replacementChar, replacementChar]
              | b4 :: bs4 =>
                if 0x80 ≤ b4 ∧ b4 ≤ 0xBF then
                  Char.ofNat ((b - 0xF0) * 0x40000 + (b2 - 0x80) * 0x1000 +
                      (b3 - 0x80) * 0x40 + (b4 - 0x80)) :: utf8Decode bs4
                else
                  replacementChar :: utf8Decode (b4 :: bs4)
            else
              replacementChar :: utf8Decode (b3 :: bs3)
        else
          replacementChar :: utf8Decode (b2 :: bs2)
    else
      replacementChar :: utf8Decode bs

/-- Every byte emitted by the single-character encoder is below 256. -/
theorem utf8EncodeChar_lt_256 (c : Char) : ∀ b ∈ utf8EncodeChar c, b < 256 := by
  have hval : c.toNat < 0x110000 := by
    have h : c.toNat < 0xD800 ∨ (0xDFFF < c.toNat ∧ c.toNat < 0x110000) := c.valid
    omega
  intro b hb
  unfold utf8EncodeChar at hb
  split at hb
  · simp only [List.mem_singleton] at hb; omega
  · split at hb
    · simp only [List.mem_cons, List.mem_singleton, List.not_mem_nil, or_false] at hb
      rcases hb with rfl | rfl <;> omega
    · split at hb
      · simp only [List.mem_cons, List.mem_singleton, List.not_mem_nil, or_false] at hb
        rcases hb with rfl | rfl | rfl <;> omega
      · simp only [List.mem_cons, List.mem_singleton, List.not_mem_nil, or_false] at hb
        rcases hb with rfl | rfl | rfl | rfl <;> omega

/-- Every byte emitted by the encoder is below 256. -/
theorem utf8Encode_lt_256 (s : List Char) : ∀ b ∈ utf8Encode s, b < 256 := by
  intro b hb
  simp only [utf8Encode, List.mem_flatten, List.mem_map] at hb
  obtain ⟨l, ⟨c, _, rfl⟩, hbl⟩ := hb
  exact utf8EncodeChar_lt_256 c b hbl

/-- Decoding the encoding of one scalar value in front of any byte tail
yields that scalar followed by the decode of the tail. -/
theorem utf8Decode_encodeChar (c : Char) (rest : List Nat) :
    utf8Decode (utf8EncodeChar c ++ rest) = c :: utf8Decode rest := by
  have hval : c.toNat < 0xD800 ∨ (0xDFFF < c.toNat ∧ c.toNat < 0x110000) := c.valid
  have hofNat : Char.ofNat c.toNat = c := Char.ofNat_toNat c
  by_cases h1 : c.toNat < 0x80
  · have henc : utf8EncodeChar c = [c.toNat] := by
      unfold utf8EncodeChar; rw [if_pos h1]
    rw [henc, List.cons_append, List.nil_append, utf8Decode.eq_def]
    simp only [if_pos h1, hofNat]
  · by_cases h2 : c.toNat < 0x800
    · have henc : utf8EncodeChar c = [0xC0 + c.toNat / 0x40, 0x80 + c.toNat % 0x40] := by
        unfold utf8EncodeChar; rw [if_neg h1, if_pos h2]
      rw [henc]
      simp only [List.cons_append, List.nil_append]
      rw [utf8Decode.eq_def]
      have hb : ¬ (0xC0 + c.toNat / 0x40 < 0x80) := by omega
      have hlead : 0xC2 ≤ 0xC0 + c.toNat / 0x40 ∧ 0xC0 + c.toNat / 0x40 ≤ 0xDF := by
        omega
      have hcont : 0x80 ≤ 0x80 + c.toNat % 0x40 ∧ 0x80 + c.toNat % 0x40 ≤ 0xBF := by
        omega
      simp only [if_neg hb, if_pos hlead, if_pos hcont]
      have harith : (0xC0 + c.toNat / 0x40 - 0xC0) * 0x40 + (0x80 + c.toNat % 0x40 - 0x80)
          = c.toNat := by omega
      rw [harith, hofNat]
    · by_cases h3 : c.toNat < 0x10000
      · have henc : utf8EncodeChar c = [0xE0 + c.toNat / 0x1000,
            0x80 + c.toNat / 0x40 % 0x40, 0x80 + c.toNat % 0x40] := by
          unfold utf8EncodeChar; rw [if_neg h1, if_neg h2, if_pos h3]
        rw [henc]
        simp only [List.cons_append, List.nil_append]
        rw [utf8Decode.eq_def]
        have hns : ¬ (0xD800 ≤ c.toNat ∧ c.toNat ≤ 0xDFFF) := by omega
        have hb : ¬ (0xE0 + c.toNat / 0x1000 < 0x80) := by omega
        have hnb2 : ¬ (0xC2 ≤ 0xE0 + c.toNat / 0x1000 ∧ 0xE0 + c.toNat / 0x1000 ≤ 0xDF) := by
          omega
        have hlead : 0xE0 ≤ 0xE0 + c.toNat / 0x1000 ∧ 0xE0 + c.toNat / 0x1000 ≤ 0xEF := by
          omega
        have hcont1 : (if 0xE0 + c.toNat / 0x1000 = 0xE0 then 0xA0 else 0x80) ≤
            0x80 + c.toNat / 0x40 % 0x40 ∧
            0x80 + c.toNat / 0x40 % 0x40 ≤
              (if 0xE0 + c.toNat / 0x1000 = 0xED then 0x9F else 0xBF) := by
          constructor
          · split <;> omega
          · split <;> omega
        have hcont2 : 0x80 ≤ 0x80 + c.toNat % 0x40 ∧ 0x80 + c.toNat % 0x40 ≤ 0xBF := by
          omega
        simp only [if_neg hb, if_neg hnb2, if_pos hlead, if_pos hcont1, if_pos hcont2]
        have harith : (0xE0 + c.toNat / 0x1000 - 0xE0) * 0x1000 +
            (0x80 + c.toNat / 0x40 % 0x40 - 0x80) * 0x40 + (0x80 + c.toNat % 0x40 - 0x80)
            = c.toNat := by omega
        rw [harith, hofNat]
      · have henc : utf8EncodeChar c = [0xF0 + c.toNat / 0x40000,
            0x80 + c.toNat / 0x1000 % 0x40, 0x80 + c.toNat / 0x40 % 0x40,
            0x80 + c.toNat % 0x40] := by
          unfold utf8EncodeChar; rw [if_neg h1, if_neg h2, if_neg h3]
        rw [henc]
        simp only [List.cons_append, List.nil_append]
        rw [utf8Decode.eq_def]
        have hhi : c.toNat < 0x110000 := by omega
        have hb : ¬ (0xF0 + c.toNat / 0x40000 < 0x80) := by omega
        have hnb2 : ¬ (0xC2 ≤ 0xF0 + c.toNat / 0x40000 ∧ 0xF0 + c.toNat / 0x40000 ≤ 0xDF) := by
          omega
        have hnb3 : ¬ (0xE0 ≤ 0xF0 + c.toNat / 0x40000 ∧ 0xF0 + c.toNat / 0x40000 ≤ 0xEF) := by
          omega
        have hlead : 0xF0 ≤ 0xF0 + c.toNat / 0x40000 ∧ 0xF0 + c.toNat / 0x40000 ≤ 0xF4 := by
          omega
        have hcont1 : (if 0xF0 + c.toNat / 0x40000 = 0xF0 then 0x90 else 0x80) ≤
            0x80 + c.toNat / 0x1000 % 0x40 ∧
            0x80 + c.toNat / 0x1000 % 0x40 ≤
              (if 0xF0 + c.toNat / 0x40000 = 0xF4 then 0x8F else 0xBF) := by
          constructor
          · split <;> omega
          · split <;> omega
        have hcont2 : 0x80 ≤ 0x80 + c.toNat / 0x40 % 0x40 ∧
            0x80 + c.toNat / 0x40 % 0x40 ≤ 0xBF := by omega
        have hcont3 : 0x80 ≤ 0x80 + c.toNat % 0x40 ∧ 0x80 + c.toNat % 0x40 ≤ 0xBF := by
          omega
        simp only [if_neg hb, if_neg hnb2, if_neg hnb3, if_pos hlead, if_pos hcont1,
          if_pos hcont2, if_pos hcont3]
        have harith : (0xF0 + c.toNat / 0x40000 - 0xF0) * 0x40000 +
            (0x80 + c.toNat / 0x1000 % 0x40 - 0x80) * 0x1000 +
            (0x80 + c.toNat / 0x40 % 0x40 - 0x80) * 0x40 + (0x80 + c.toNat % 0x40 - 0x80)
            = c.toNat := by omega
        rw [harith, hofNat]

/-- The decoder is a retraction of the encoder: decoding an encoded string
returns the string unchanged. -/
theorem utf8Decode_utf8Encode (s : List Char) : utf8Decode (utf8Encode s) = s := by
  induction s with
  | nil => rfl
  | cons c cs ih =>
    have : utf8Encode (c :: cs) = utf8EncodeChar c ++ utf8Encode cs := by
      simp [utf8Encode]
    rw [this, utf8Decode_encodeChar, ih]

/-! ## ClipboardEntry (src/registry.js lines 326-440)

The JS class holds a mimetype string, a `Uint8Array` payload and a favorite
flag.  The `imageHash` field is computed deterministically from the bytes at
construction, so it is modelled as a derived function rather than a stored
field.  Constructor inputs are JS values: the mimetype may be absent or
empty (falsy), the payload may be a string, a plain array, a `Uint8Array`
or anything else, and the favorite flag is an arbitrary value coerced with
`!!`. -/

/-- Byte-wise prefix test, modelling `String.prototype.startsWith`. -/
def beginsWith : List Char → List Char → Bool
  | [], _ => true
  | _ :: _, [] => false
  | a :: as, b :: bs => a == b && beginsWith as bs

/-- JS `s.startsWith(p)`. -/
def strStartsWith (s p : String) : Bool := beginsWith p.data s.data

/-- The stored state of a `ClipboardEntry` instance. -/
structure ClipboardEntry where
  mimetype : String
  bytes : List Nat
  favorite : Bool
deriving DecidableEq, Repr

/-- The payload argument of the `ClipboardEntry` constructor: a JS string,
a plain array of integers, a `Uint8Array`, or any other value. -/
inductive JsPayload where
  | str (s : String)
  | arr (a : List Int)
  | u8 (a : List Nat)
  | other
deriving DecidableEq

/-- A JS value as passed for the `favorite` argument. -/
inductive JsVal where
  | vBool (b : Bool)
  | vStr (s : String)
  | vNum (n : Int)
  | vNull
  | vUndefined
deriving DecidableEq

/-- JS truthiness, as used by `!!favorite` (line 346). -/
def truthy : JsVal → Bool
  | .vBool b => b
  | .vStr s => !(s == "")
  | .vNum n => !(n == 0)
  | .vNull => false
  | .vUndefined => false

/-- The `ClipboardEntry` constructor (lines 332-352): a falsy mimetype
defaults to `text/plain`; a string payload is UTF-8 encoded, an array is
coerced element-wise to bytes (`new Uint8Array(array)` wraps modulo 256),
a `Uint8Array` is kept verbatim, anything else becomes empty; the favorite
flag is coerced with `!!`.  Total: every input yields an entry. -/
def mkClipboardEntry (mimetype : Option String) (payload : JsPayload)
    (favorite : JsVal) : ClipboardEntry where
  mimetype :=
    match mimetype with
    | none => "text/plain"
    | some s => if s = "" then "text/plain" else s
  bytes :=
    match payload with
    | .str s => utf8Encode s.data
    | .arr a => a.map (fun n => (n % 256).toNat)
    | .u8 a => a
    | .other => []
  favorite := truthy favorite

/-- Static `ClipboardEntry.isText(mimetype)` (lines 387-391). -/
def ClipboardEntry.isTextMime (m : String) : Bool :=
  strStartsWith m "text/" || m == "STRING" || m == "UTF8_STRING"

/-- Method `isText()` (lines 425-427). -/
def ClipboardEntry.isText (e : ClipboardEntry) : Bool :=
  ClipboardEntry.isTextMime e.mimetype

/-- Method `isImage()` (lines 429-431). -/
def ClipboardEntry.isImage (e : ClipboardEntry) : Bool :=
  strStartsWith e.mimetype "image/"

/-- Method `getStringValue()` (lines 405-415): the text projection used for
identity and search — a synthetic `[Image N]` marker for images (N the
payload byte length), the UTF-8 decoded payload otherwise.  The decode
branch cannot throw (a non-fatal `TextDecoder` replaces malformed input),
so the `[Invalid content]` catch branch is dead. -/
def ClipboardEntry.getStringValue (e : ClipboardEntry) : String :=
  if e.isImage then "[Image " ++ toString e.bytes.length ++ "]"
  else String.mk (utf8Decode e.bytes)

/-- Method `equals(otherEntry)` (lines 437-439). -/
def ClipboardEntry.equals (e other : ClipboardEntry) : Bool :=
  e.getStringValue == other.getStringValue

/-- JS `ToInt32` wrapping, used by the `<<` operator in the hash. -/
def toInt32 (n : Int) : Int := (n + 2 ^ 31) % 2 ^ 32 - 2 ^ 31

/-- One step of the rolling hash `((hash << 5) - hash) + byte` (line 364):
the shift coerces to a 32-bit signed integer, the rest is exact. -/
def djb2Step (h : Int) (b : Nat) : Int := toInt32 (h * 32) - h + b

/-- A base-36 digit as produced by `Number.prototype.toString(36)`. -/
def base36Digit (d : Nat) : Char :=
  if d < 10 then Char.ofNat (48 + d) else Char.ofNat (87 + d)

/-- Base-36 digit emission; the fuel bounds the number of divisions. -/
def natToBase36Aux : Nat → Nat → List Char → List Char
  | 0, _, acc => acc
  | fuel + 1, n, acc =>
    if n = 0 then acc else natToBase36Aux fuel (n / 36) (base36Digit (n % 36) :: acc)

/-- `n.toString(36)` for a nonnegative integer. -/
def natToBase36 (n : Nat) : String :=
  if n = 0 then "0" else String.mk (natToBase36Aux n n [])

/-- `i.toString(36)` for a JS integer. -/
def intToBase36 (i : Int) : String :=
  if i < 0 then "-" ++ natToBase36 i.natAbs else natToBase36 i.toNat

/-- `#generateHash()` (lines 354-370): rolling hash of the first 1000
payload bytes, rendered in base 36. -/
def generateHash (bytes : List Nat) : String :=
  intToBase36 ((bytes.take 1000).foldl djb2Step 5381)

/-- The `imageHash` property: computed at construction for image entries
only (lines 349-351, 372-374). -/
def ClipboardEntry.imageHash (e : ClipboardEntry) : Option String :=
  if e.isImage then some (generateHash e.bytes) else none

/-! ## Manifest serialization (src/registry.js lines 35-85, 377-384)

`Registry.write` serializes `entries.map(e => e.toJSON())` as JSON;
`Registry.read` parses the file and rebuilds entries per record.  JSON
faithfully round-trips these record structures (strings, number arrays,
booleans), so the file is modelled as the parsed record list. -/

/-- One record of `clipboard.json` as produced by `toJSON()` (lines
377-384): `content` is the decoded string for text entries and the byte
array (`Array.from(bytes)`) otherwise; `imageHash` is absent for non-image
entries (`JSON.stringify` drops `undefined` fields). -/
structure ManifestRecord where
  mimeType : String
  content : String ⊕ List Nat
  favorite : Bool
  imageHash : Option String
deriving DecidableEq

/-- Method `toJSON()` (lines 377-384). -/
def ClipboardEntry.toJSON (e : ClipboardEntry) : ManifestRecord where
  mimeType := e.mimetype
  content := if e.isText then Sum.inl e.getStringValue else Sum.inr e.bytes
  favorite := e.favorite
  imageHash := e.imageHash

/-- `Registry.write(entries, workspace)` (lines 73-85): the manifest
written to disk. -/
def Registry.write (entries : List ClipboardEntry) : List ManifestRecord :=
  entries.map ClipboardEntry.toJSON

/-- Rebuilding one entry in `Registry.read` (lines 49-66): an array
`content` goes through `new Uint8Array(content)` (element-wise modulo 256)
and reaches the constructor as a `Uint8Array`; a string `content` is passed
through; `entry.favorite || false` coerces the flag. -/
def Registry.readRecord (r : ManifestRecord) : ClipboardEntry :=
  mkClipboardEntry (some r.mimeType)
    (match r.content with
      | Sum.inl s => JsPayload.str s
      | Sum.inr a => JsPayload.u8 (a.map (fun n => n % 256)))
    (JsVal.vBool r.favorite)

/-- `Registry.read(workspace)` on a successfully parsed manifest (lines
35-71); the per-record `catch` is dead since the modelled constructor is
total, so no record is skipped. -/
def Registry.read (records : List ManifestRecord) : List ClipboardEntry :=
  records.map Registry.readRecord

/-- Well-formedness of an entry as established by the constructor: the
mimetype is non-empty and all payload elements are bytes. -/
def entryWF (e : ClipboardEntry) : Prop :=
  e.mimetype ≠ "" ∧ ∀ b ∈ e.bytes, b < 256

instance (e : ClipboardEntry) : Decidable (entryWF e) := by
  unfold entryWF
  infer_instance

/-- A mimetype starting with `text/` does not start with `image/`. -/
theorem strStartsWith_text_not_image (m : String)
    (h : strStartsWith m "text/" = true) : strStartsWith m "image/" = false := by
  unfold strStartsWith at h ⊢
  have hdt : "text/".data = ['t', 'e', 'x', 't', '/'] := rfl
  have hdi : "image/".data = ['i', 'm', 'a', 'g', 'e', '/'] := rfl
  rw [hdt] at h
  rw [hdi]
  cases hm : m.data with
  | nil => rw [hm] at h; simp [beginsWith] at h
  | cons c cs =>
    rw [hm] at h
    simp only [beginsWith, Bool.and_eq_true, beq_iff_eq] at h
    obtain ⟨rfl, -⟩ := h
    have hne : (('i' : Char) == 't') = false := by decide
    simp [beginsWith, hne]

/-- Text entries are never image entries: the two kinds are disjoint. -/
theorem ClipboardEntry.isText_isImage_false (e : ClipboardEntry)
    (h : e.isText = true) : e.isImage = false := by
  unfold ClipboardEntry.isText ClipboardEntry.isTextMime at h
  unfold ClipboardEntry.isImage
  simp only [Bool.or_eq_true, beq_iff_eq] at h
  rcases h with (h | h) | h
  · exact strStartsWith_text_not_image _ h
  · rw [h]; decide
  · rw [h]; decide

/-- Reducing bytes modulo 256 is the identity on well-formed byte lists. -/
theorem map_mod_256_eq (l : List Nat) (h : ∀ b ∈ l, b < 256) :
    l.map (fun n => n % 256) = l := by
  induction l with
  | nil => rfl
  | cons x xs ih =>
    simp only [List.mem_cons] at h
    rw [List.map_cons, Nat.mod_eq_of_lt (h x (Or.inl rfl)),
      ih (fun b hb => h b (Or.inr hb))]

/-- Reading back a serialized entry: everything is preserved except that a
text payload is re-encoded from its decoded string. -/
theorem readRecord_toJSON (e : ClipboardEntry) (hmt : e.mimetype ≠ "")
    (hb : ∀ b ∈ e.bytes, b < 256) :
    Registry.readRecord e.toJSON =
      { e with bytes := if e.isText then utf8Encode (utf8Decode e.bytes) else e.bytes } := by
  obtain ⟨mt, bs, fav⟩ := e
  unfold Registry.readRecord ClipboardEntry.toJSON mkClipboardEntry
  by_cases ht : ClipboardEntry.isText ⟨mt, bs, fav⟩
  · have himg : ClipboardEntry.isImage ⟨mt, bs, fav⟩ = false :=
      ClipboardEntry.isText_isImage_false _ ht
    simp only [ht, if_pos, if_true]
    unfold ClipboardEntry.getStringValue
    simp only [himg, Bool.false_eq_true, if_false]
    simp only [truthy, ClipboardEntry.mk.injEq]
    simp [hmt]
  · simp only [ht, Bool.false_eq_true, if_false]
    simp only [truthy, ClipboardEntry.mk.injEq]
    simp [hmt, map_mod_256_eq bs hb]

/-- Valid UTF-8 re-encodes to itself after decoding. -/
theorem reencode_of_valid (bs : List Nat) (s : List Char) (h : bs = utf8Encode s) :
    utf8Encode (utf8Decode bs) = bs := by
  rw [h, utf8Decode_utf8Encode]

/-- Writing then reading a manifest reproduces every entry whose text
payload is valid UTF-8; non-text entries always survive unchanged. -/
theorem read_write (l : List ClipboardEntry)
    (hwf : ∀ e ∈ l, entryWF e)
    (htext : ∀ e ∈ l, e.isText = true → ∃ s : List Char, e.bytes = utf8Encode s) :
    Registry.read (Registry.write l) = l := by
  induction l with
  | nil => rfl
  | cons e es ih =>
    have hewf : entryWF e := hwf e (List.mem_cons_self e es)
    have hrec : Registry.readRecord e.toJSON =
        { e with bytes := if e.isText then utf8Encode (utf8Decode e.bytes) else e.bytes } :=
      readRecord_toJSON e hewf.1 hewf.2
    have hbytes : (if e.isText then utf8Encode (utf8Decode e.bytes) else e.bytes) = e.bytes := by
      by_cases ht : e.isText
      · obtain ⟨s, hs⟩ := htext e (List.mem_cons_self e es) ht
        rw [if_pos ht, reencode_of_valid e.bytes s hs]
      · rw [if_neg ht]
    have htail : Registry.read (Registry.write es) = es :=
      ih (fun x hx => hwf x (List.mem_cons_of_mem e hx))
        (fun x hx => htext x (List.mem_cons_of_mem e hx))
    show Registry.readRecord e.toJSON :: Registry.read (Registry.write es) = e :: es
    rw [hrec, hbytes, htail]

/-! ## In-memory history operations (the indicator class)

`clipItemsRadioGroup` is the ordered in-memory list of menu items, oldest
first: `_addEntry` pushes at the end (line 1236), `_removeEntry` splices
one item out (line 1363).  Only each item's `entry` matters for the claims,
so the state is modelled as `List ClipboardEntry` in the same order. -/

/-- The count of non-favorite items, as filtered by `_removeOldestEntries`
(lines 1379-1380) and `_refreshIndicator` (line 1490). -/
def nonFavCount (items : List ClipboardEntry) : Nat :=
  (items.filter (fun it => it.favorite == false)).length

/-- Removing the oldest (lowest-index) non-favorite item, as one iteration
of the `_removeOldestEntries` loop does via `shift()` plus `_removeEntry`
(lines 1384-1386). -/
def dropOldestNonFav : List ClipboardEntry → List ClipboardEntry
  | [] => []
  | e :: rest => if e.favorite then e :: dropOldestNonFav rest else rest

/-- The `while` loop of `_removeOldestEntries` (lines 1384-1390): keeps
removing the oldest non-favorite while the non-favorite count exceeds
`MAX_REGISTRY_LENGTH`.  Each iteration removes one element, so a fuel of
`items.length` bounds the iteration count. -/
def removeOldestGo (maxLen : Nat) : Nat → List ClipboardEntry → List ClipboardEntry
  | 0, items => items
  | fuel + 1, items =>
    if maxLen < nonFavCount items then removeOldestGo maxLen fuel (dropOldestNonFav items)
    else items

/-- `_removeOldestEntries()` (lines 1373-1395): no-op when the configured
maximum is zero. -/
def removeOldestEntries (maxLen : Nat) (items : List ClipboardEntry) :
    List ClipboardEntry :=
  if maxLen = 0 then items else removeOldestGo maxLen items.length items

/-- `_favoriteToggle(menuItem)` (lines 1316-1321): flips the flag, then
`_moveItemFirst` removes the item and re-appends it at the newest
position. -/
def toggleFavoriteAt (items : List ClipboardEntry) (i : Nat) : List ClipboardEntry :=
  match items[i]? with
  | some e => items.eraseIdx i ++ [{ e with favorite := !e.favorite }]
  | none => items

/-- The mutation of `clipItemsRadioGroup` performed by one successful
`_refreshIndicator()` capture (lines 1472-1505): search for an entry with
equal text projection; if found and non-favorite with `MOVE_ITEM_FIRST`,
relocate it to the newest position; if absent, insert at the newest
position, first running `_removeOldestEntries` when the non-favorite count
has reached the nonzero maximum. -/
def addOrPromote (maxLen : Nat) (moveFirst : Bool) (cand : ClipboardEntry)
    (items : List ClipboardEntry) : List ClipboardEntry :=
  match items.find? (fun it => it.equals cand) with
  | some ex =>
    if !ex.favorite && moveFirst then items.erase ex ++ [ex]
    else items
  | none =>
    if maxLen = 0 ∨ nonFavCount items < maxLen then items ++ [cand]
    else removeOldestEntries maxLen items ++ [cand]

/-- The entry list passed to `Registry.write` by `_updateCache()`
(lines 1442-1448). -/
def updateCacheEntries (cacheOnlyFav : Bool) (items : List ClipboardEntry) :
    List ClipboardEntry :=
  items.filter (fun e => cacheOnlyFav == false || e.favorite)

/-- The entry list passed to `Registry.write` by `#addToCache(entry)`
(lines 1450-1456): the favorites filter applies to the existing items only,
the new entry is concatenated after it. -/
def addToCacheEntries (cacheOnlyFav : Bool) (items : List ClipboardEntry)
    (entry : ClipboardEntry) : List ClipboardEntry :=
  items.filter (fun e => cacheOnlyFav == false || e.favorite) ++ [entry]

/-! ## Workspaces configuration (src/registry.js lines 156-222) -/

/-- The persisted `workspaces.json` structure. -/
structure WorkspacesConfig where
  workspaces : List String
  activeWorkspace : String
deriving DecidableEq, Repr

/-- The hard-coded bootstrap default (lines 178-181). -/
def defaultConfig : WorkspacesConfig where
  workspaces := ["Workspace1", "Workspace2", "Workspace3"]
  activeWorkspace := "Workspace1"

/-- A parsed `workspaces.json` value: each field may be missing or of the
wrong shape (`none` models a missing field or, for `workspaces`, a
non-array value). -/
structure RawConfig where
  workspaces : Option (List String)
  activeWorkspace : Option String
deriving DecidableEq

/-- What `loadWorkspacesConfig` finds on disk: no file, an unreadable file
(`file_get_contents` reports failure), unparsable JSON (`JSON.parse`
throws), or a parsed value (`none` modelling JSON `null`). -/
inductive ConfigFileState where
  | absent
  | unreadable
  | parseFail
  | parsed (c : Option RawConfig)
deriving DecidableEq

/-- The outcome of `loadWorkspacesConfig()`: the returned configuration and
whether `saveWorkspacesConfig` was invoked during the load. -/
structure LoadResult where
  config : WorkspacesConfig
  savedDefault : Bool
deriving DecidableEq, Repr

/-- `loadWorkspacesConfig()` (lines 176-222): the default is saved only in
the file-absent branch (line 185); every failure branch returns the default
without saving; a structurally valid config whose `activeWorkspace` is not
in the list has the pointer repaired to the first listed workspace
(lines 213-215) and is returned, also without saving. -/
def loadWorkspacesConfig : ConfigFileState → LoadResult
  | .absent => ⟨defaultConfig, true⟩
  | .unreadable => ⟨defaultConfig, false⟩
  | .parseFail => ⟨defaultConfig, false⟩
  | .parsed none => ⟨defaultConfig, false⟩
  | .parsed (some c) =>
    match c.workspaces, c.activeWorkspace with
    | none, _ => ⟨defaultConfig, false⟩
    | some _, none => ⟨defaultConfig, false⟩
    | some ws, some act =>
      if ws.isEmpty then ⟨defaultConfig, false⟩
      else if act = "" then ⟨defaultConfig, false⟩
      else if ws.contains act then ⟨⟨ws, act⟩, false⟩
      else ⟨⟨ws, ws.headD ""⟩, false⟩

/-! ## Workspace switching (src/registry.js lines 1984-2034)

`_switchWorkspace(name)` falls back to the first configured workspace for
an unknown name, persists the current workspace through `_updateCache()`
(which serializes via `Registry.write`), clears the in-memory list, moves
the active pointer, persists the configuration, and reloads the target
workspace through `Registry.read`.  The disk is modelled as a map from
workspace name to its manifest records; `configSaves` logs each
`saveWorkspacesConfig` call in order. -/

/-- Global state seen by `_switchWorkspace`. -/
structure SwitchState where
  disk : String → List ManifestRecord
  workspaces : List String
  active : String
  items : List ClipboardEntry
  configSaves : List (List String × String)

/-- Writing one workspace's manifest file. -/
def diskWrite (d : String → List ManifestRecord) (w : String)
    (records : List ManifestRecord) : String → List ManifestRecord :=
  fun x => if x = w then records else d x

/-- `_switchWorkspace(name)` (lines 1984-2034).  The empty-load retry
(lines 2017-2025) re-reads the same file and is observationally the same
load; the fixed `setTimeout` delays order no observable effect in this
single-threaded model. -/
def switchWorkspace (cacheOnlyFav : Bool) (name : String) (s : SwitchState) :
    SwitchState :=
  let target := if s.workspaces.contains name then name else s.workspaces.headD ""
  let disk1 := diskWrite s.disk s.active
    (Registry.write (updateCacheEntries cacheOnlyFav s.items))
  { disk := disk1
    workspaces := s.workspaces
    active := target
    items := Registry.read (disk1 target)
    configSaves := s.configSaves ++ [(s.workspaces, target)] }

/-! ## Supporting lemmas about the history operations -/

/-- The text projection relation used by `equals`. -/
theorem ClipboardEntry.equals_eq (a b : ClipboardEntry) :
    a.equals b = (a.getStringValue == b.getStringValue) := rfl

/-- No two stored entries share a text projection (the workspace
invariant). -/
def nodupProj (l : List ClipboardEntry) : Prop :=
  l.Pairwise (fun a b => a.getStringValue ≠ b.getStringValue)

/-- How many stored entries have the given text projection. -/
def projCount (v : String) (l : List ClipboardEntry) : Nat :=
  l.countP (fun it => it.getStringValue == v)

theorem dropOldestNonFav_sublist (l : List ClipboardEntry) :
    List.Sublist (dropOldestNonFav l) l := by
  induction l with
  | nil => exact List.Sublist.refl []
  | cons e rest ih =>
    unfold dropOldestNonFav
    split
    · exact List.Sublist.cons₂ e ih
    · exact List.sublist_cons_self e rest

theorem removeOldestGo_sublist (ml fuel : Nat) (l : List ClipboardEntry) :
    List.Sublist (removeOldestGo ml fuel l) l := by
  induction fuel generalizing l with
  | zero => exact List.Sublist.refl l
  | succ n ih =>
    unfold removeOldestGo
    split
    · exact (ih (dropOldestNonFav l)).trans (dropOldestNonFav_sublist l)
    · exact List.Sublist.refl l

theorem removeOldestEntries_sublist (ml : Nat) (l : List ClipboardEntry) :
    List.Sublist (removeOldestEntries ml l) l := by
  unfold removeOldestEntries
  split
  · exact List.Sublist.refl l
  · exact removeOldestGo_sublist ml l.length l

/-- One eviction step never touches favorites. -/
theorem filter_fav_dropOldestNonFav (l : List ClipboardEntry) :
    (dropOldestNonFav l).filter (fun e => e.favorite) =
      l.filter (fun e => e.favorite) := by
  induction l with
  | nil => rfl
  | cons e rest ih =>
    unfold dropOldestNonFav
    by_cases hf : e.favorite
    · rw [if_pos hf, List.filter_cons, List.filter_cons]
      simp only [hf, if_true, ih]
    · rw [if_neg hf, List.filter_cons]
      simp only [hf, Bool.false_eq_true, if_false]

/-- The eviction loop never touches favorites. -/
theorem filter_fav_removeOldestGo (ml fuel : Nat) (l : List ClipboardEntry) :
    (removeOldestGo ml fuel l).filter (fun e => e.favorite) =
      l.filter (fun e => e.favorite) := by
  induction fuel generalizing l with
  | zero => rfl
  | succ n ih =>
    unfold removeOldestGo
    split
    · rw [ih (dropOldestNonFav l), filter_fav_dropOldestNonFav]
    · rfl

/-- `_removeOldestEntries` never touches favorites. -/
theorem filter_fav_removeOldestEntries (ml : Nat) (l : List ClipboardEntry) :
    (removeOldestEntries ml l).filter (fun e => e.favorite) =
      l.filter (fun e => e.favorite) := by
  unfold removeOldestEntries
  split
  · rfl
  · exact filter_fav_removeOldestGo ml l.length l

/-- A favorite member survives `_removeOldestEntries`. -/
theorem mem_removeOldestEntries_of_fav (ml : Nat) (l : List ClipboardEntry)
    (e : ClipboardEntry) (hm : e ∈ l) (hf : e.favorite = true) :
    e ∈ removeOldestEntries ml l := by
  have h1 : e ∈ l.filter (fun e => e.favorite) := List.mem_filter.mpr ⟨hm, hf⟩
  rw [← filter_fav_removeOldestEntries ml l] at h1
  exact (List.mem_filter.mp h1).1

/-- A favorite member survives one `addOrPromote` step. -/
theorem mem_addOrPromote_of_fav (ml : Nat) (mf : Bool) (c : ClipboardEntry)
    (l : List ClipboardEntry) (e : ClipboardEntry) (hm : e ∈ l)
    (hf : e.favorite = true) : e ∈ addOrPromote ml mf c l := by
  unfold addOrPromote
  cases hfind : l.find? (fun it => it.equals c) with
  | some ex =>
    dsimp only
    split
    · by_cases he : e = ex
      · subst he
        exact List.mem_append_right _ (List.mem_singleton.mpr rfl)
      · exact List.mem_append_left _ ((List.mem_erase_of_ne he).mpr hm)
    · exact hm
  | none =>
    dsimp only
    split
    · exact List.mem_append_left _ hm
    · exact List.mem_append_left _ (mem_removeOldestEntries_of_fav ml l e hm hf)

/-- A favorite member survives any sequence of `addOrPromote` steps. -/
theorem mem_foldl_addOrPromote_of_fav (ml : Nat) (mf : Bool)
    (es : List ClipboardEntry) (l : List ClipboardEntry) (e : ClipboardEntry)
    (hm : e ∈ l) (hf : e.favorite = true) :
    e ∈ es.foldl (fun acc c => addOrPromote ml mf c acc) l := by
  induction es generalizing l with
  | nil => exact hm
  | cons c cs ih =>
    exact ih (addOrPromote ml mf c l) (mem_addOrPromote_of_fav ml mf c l e hm hf)

/-- If `_refreshIndicator`'s search finds nothing, no stored entry has the
candidate's projection. -/
theorem projCount_of_find_none (c : ClipboardEntry) (l : List ClipboardEntry)
    (h : l.find? (fun it => it.equals c) = none) :
    projCount c.getStringValue l = 0 := by
  rw [projCount, List.countP_eq_zero]
  intro a ha
  have hna := List.find?_eq_none.mp h a ha
  simpa [ClipboardEntry.equals] using hna

/-- Under the no-duplicate invariant at most one entry has any given
projection. -/
theorem projCount_le_one (v : String) (l : List ClipboardEntry)
    (h : nodupProj l) : projCount v l ≤ 1 := by
  induction l with
  | nil => simp [projCount]
  | cons a rest ih =>
    rw [nodupProj, List.pairwise_cons] at h
    obtain ⟨hha, hrest⟩ := h
    rw [projCount, List.countP_cons]
    by_cases hav : (a.getStringValue == v) = true
    · have hz : rest.countP (fun it => it.getStringValue == v) = 0 := by
        rw [List.countP_eq_zero]
        intro b hb hbv
        rw [beq_iff_eq] at hav hbv
        exact hha b hb (hav.trans hbv.symm)
      simp [hz, hav]
    · have hle := ih hrest
      rw [projCount] at hle
      simp only [hav, Bool.false_eq_true, if_false]
      omega

theorem projCount_pos_of_mem (v : String) (l : List ClipboardEntry)
    (ex : ClipboardEntry) (hm : ex ∈ l)
    (hv : (ex.getStringValue == v) = true) : 1 ≤ projCount v l := by
  rw [projCount]
  have hpos : 0 < l.countP (fun it => it.getStringValue == v) :=
    List.countP_pos_iff.mpr ⟨ex, hm, hv⟩
  omega

/-- Relocation (`_moveItemFirst` on a found item) permutes the list. -/
theorem erase_append_singleton_perm (l : List ClipboardEntry)
    (ex : ClipboardEntry) (hm : ex ∈ l) : (l.erase ex ++ [ex]).Perm l := by
  have h1 : l.Perm (ex :: l.erase ex) := List.perm_cons_erase hm
  have h2 : (l.erase ex ++ [ex]).Perm (ex :: l.erase ex) :=
    List.perm_append_singleton ex (l.erase ex)
  exact h2.trans h1.symm

theorem nodupProj_of_perm (l l2 : List ClipboardEntry) (hp : l.Perm l2)
    (h : nodupProj l) : nodupProj l2 := by
  rw [nodupProj] at h ⊢
  exact (List.Perm.pairwise_iff (fun h1 h2 => h1 h2.symm) hp).mp h

/-- Inserting a fresh candidate after any eviction yields exactly one entry
with its projection and keeps projections duplicate-free. -/
theorem append_cand_proj (l pre : List ClipboardEntry) (c : ClipboardEntry)
    (hnd : nodupProj l) (h0 : projCount c.getStringValue l = 0)
    (hsub : List.Sublist pre l) :
    nodupProj (pre ++ [c]) ∧ projCount c.getStringValue (pre ++ [c]) = 1 := by
  have hpre0 : pre.countP (fun it => it.getStringValue == c.getStringValue) = 0 := by
    rw [projCount] at h0
    have := List.Sublist.countP_le (fun it => it.getStringValue == c.getStringValue) hsub
    omega
  constructor
  · rw [nodupProj, List.pairwise_append]
    refine ⟨List.Pairwise.sublist hsub hnd, List.pairwise_singleton _ _, ?_⟩
    intro a ha b hb
    rw [List.mem_singleton] at hb
    subst hb
    intro heq
    have hbeq : (a.getStringValue == b.getStringValue) = true := beq_iff_eq.mpr heq
    exact absurd hbeq (List.countP_eq_zero.mp hpre0 a ha)
  · rw [projCount, List.countP_append, hpre0]
    simp

/-- One `addOrPromote` step keeps projections duplicate-free and leaves
exactly one stored entry with the candidate's projection. -/
theorem addOrPromote_proj (ml : Nat) (mf : Bool) (c : ClipboardEntry)
    (l : List ClipboardEntry) (hnd : nodupProj l) :
    nodupProj (addOrPromote ml mf c l) ∧
    projCount c.getStringValue (addOrPromote ml mf c l) = 1 := by
  unfold addOrPromote
  cases hfind : l.find? (fun it => it.equals c) with
  | some ex =>
    have hmem : ex ∈ l := List.mem_of_find?_eq_some hfind
    have hpex0 := List.find?_some hfind
    have hpex : (ex.getStringValue == c.getStringValue) = true := hpex0
    have hcount : projCount c.getStringValue l = 1 :=
      Nat.le_antisymm (projCount_le_one _ _ hnd)
        (projCount_pos_of_mem _ _ ex hmem hpex)
    dsimp only
    split
    · have hperm := erase_append_singleton_perm l ex hmem
      refine ⟨nodupProj_of_perm l _ hperm.symm hnd, ?_⟩
      rw [projCount] at hcount ⊢
      rw [List.Perm.countP_eq _ hperm]
      exact hcount
    · exact ⟨hnd, hcount⟩
  | none =>
    have h0 : projCount c.getStringValue l = 0 := projCount_of_find_none c l hfind
    dsimp only
    split
    · exact append_cand_proj l l c hnd h0 (List.Sublist.refl l)
    · exact append_cand_proj l (removeOldestEntries ml l) c hnd h0
        (removeOldestEntries_sublist ml l)

/-! ## Concrete sample entries used by the claim evaluations -/

def entryA : ClipboardEntry := ⟨"text/plain", [97], false⟩

def entryB : ClipboardEntry := ⟨"text/plain", [98], false⟩

def entryC : ClipboardEntry := ⟨"text/plain", [99], false⟩

def entryBad : ClipboardEntry := ⟨"text/plain", [255], false⟩

def entryImg : ClipboardEntry := ⟨"image/png", [1, 2, 3], false⟩

def entryImg2 : ClipboardEntry := ⟨"image/jpeg", [7, 8, 9], true⟩

/-! ## Claims -/

/-- Claim C1 (evaluation at the failing input): the bounded-history
invariant does not hold.  With `maxLength = 1`, inserting two distinct
non-favorite entries from an empty history leaves both stored, a
non-favorite count of 2 > 1.  `_refreshIndicator` runs
`_removeOldestEntries` before inserting, and that loop only trims while
the count strictly exceeds the maximum, so when the count equals the
maximum nothing is evicted and the insertion overshoots the bound. -/
theorem claim1_nonfav_count_exceeds_max :
    addOrPromote 1 false entryB (addOrPromote 1 false entryA []) = [entryA, entryB] ∧
    nonFavCount [entryA, entryB] = 2 := by decide

/-- Claim C2 (counterexample): with `cacheOnlyFavorites = true`, the write
issued by `#addToCache` for a newly captured entry contains that entry even
though it is not a favorite — the favorites filter is applied only to the
pre-existing items, and captured entries are always constructed with
`favorite = false` (line 1959). -/
theorem claim2_counterexample :
    entryA ∈ addToCacheEntries true [] entryA ∧ entryA.favorite = false := by decide

/-- Claim C2 (amended): with `cacheOnlyFavorites = true`, the full rewrite
`_updateCache` stores favorites only, and every entry stored by
`#addToCache` is a favorite or is the single newly captured entry. -/
theorem claim2_amended (items : List ClipboardEntry) (c : ClipboardEntry) :
    (updateCacheEntries true items).all (fun e => e.favorite) = true ∧
    (addToCacheEntries true items c).all (fun e => e.favorite || (e == c)) = true := by
  constructor
  · rw [List.all_eq_true]
    intro e he
    unfold updateCacheEntries at he
    have hmem := List.mem_filter.mp he
    simpa using hmem.2
  · rw [List.all_eq_true]
    intro e he
    unfold addToCacheEntries at he
    rcases List.mem_append.mp he with h | h
    · have hfav := (List.mem_filter.mp h).2
      simp only [Bool.or_eq_true]
      left
      simpa using hfav
    · rw [List.mem_singleton] at h
      subst h
      simp

/-- Claim C3 (evaluation at the failing input): with `maxLength = 2` and
no favorites, inserting distinct entries A, B, C leaves all three stored —
the oldest entry A is not evicted, because `_removeOldestEntries` only
trims while the non-favorite count strictly exceeds the maximum. -/
theorem claim3_oldest_not_evicted :
    addOrPromote 2 false entryC
        (addOrPromote 2 false entryB (addOrPromote 2 false entryA []))
      = [entryA, entryB, entryC] ∧
    nonFavCount [entryA, entryB, entryC] = 3 := by decide

/-- Claim C4 (counterexample): a configuration whose `activeWorkspace` is
not a member of the workspace list is not replaced by the bootstrap
default — the pointer is repaired to the first listed workspace and the
repaired configuration is returned — and nothing is persisted during the
load. -/
theorem claim4_counterexample :
    loadWorkspacesConfig (.parsed (some ⟨some ["A", "B"], some "C"⟩))
      = ⟨⟨["A", "B"], "A"⟩, false⟩ ∧
    (⟨["A", "B"], "A"⟩ : WorkspacesConfig) ≠ defaultConfig := by decide

/-- Claim C4 (amended): `loadWorkspacesConfig` persists the bootstrap
default only when the file is absent; an unreadable, unparsable or
structurally invalid file (missing or empty workspace list, missing or
empty active pointer) yields the default without persisting; a dangling
active pointer is repaired to the first listed workspace, keeping the rest
of the loaded configuration, again without persisting. -/
theorem claim4_amended :
    (loadWorkspacesConfig .absent = ⟨defaultConfig, true⟩) ∧
    (loadWorkspacesConfig .unreadable = ⟨defaultConfig, false⟩) ∧
    (loadWorkspacesConfig .parseFail = ⟨defaultConfig, false⟩) ∧
    (loadWorkspacesConfig (.parsed none) = ⟨defaultConfig, false⟩) ∧
    (∀ act, loadWorkspacesConfig (.parsed (some ⟨none, act⟩))
      = ⟨defaultConfig, false⟩) ∧
    (∀ ws, loadWorkspacesConfig (.parsed (some ⟨some ws, none⟩))
      = ⟨defaultConfig, false⟩) ∧
    (∀ act, loadWorkspacesConfig (.parsed (some ⟨some [], some act⟩))
      = ⟨defaultConfig, false⟩) ∧
    (∀ ws, loadWorkspacesConfig (.parsed (some ⟨some ws, some ""⟩))
      = ⟨defaultConfig, false⟩) ∧
    (∀ ws act, act ≠ "" → ws.contains act = true →
      loadWorkspacesConfig (.parsed (some ⟨some ws, some act⟩))
        = ⟨⟨ws, act⟩, false⟩) ∧
    (∀ ws act, ws ≠ [] → act ≠ "" → ws.contains act = false →
      loadWorkspacesConfig (.parsed (some ⟨some ws, some act⟩))
        = ⟨⟨ws, ws.headD ""⟩, false⟩) := by
  refine ⟨rfl, rfl, rfl, rfl, fun act => rfl, fun ws => rfl, fun act => rfl,
    ?_, ?_, ?_⟩
  · intro ws
    unfold loadWorkspacesConfig
    dsimp only
    split
    · rfl
    · rw [if_pos rfl]
  · intro ws act hne hc
    have hwsne : ws.isEmpty = false := by
      cases ws with
      | nil => simp at hc
      | cons a rest => rfl
    unfold loadWorkspacesConfig
    dsimp only
    rw [hwsne]
    simp only [Bool.false_eq_true, if_false]
    rw [if_neg hne, if_pos hc]
  · intro ws act hnil hne hc
    have hwsne : ws.isEmpty = false := by
      cases ws with
      | nil => exact absurd rfl hnil
      | cons a rest => rfl
    unfold loadWorkspacesConfig
    dsimp only
    rw [hwsne]
    simp only [Bool.false_eq_true, if_false]
    rw [if_neg hne, if_neg (by rw [hc]; exact Bool.false_ne_true)]

/-- Claim C4 witness: a structurally valid configuration loads unchanged
and unpersisted. -/
theorem claim4_amended_witness :
    loadWorkspacesConfig (.parsed (some ⟨some ["A", "B"], some "B"⟩))
      = ⟨⟨["A", "B"], "B"⟩, false⟩ :=
  claim4_amended.2.2.2.2.2.2.2.2.1 ["A", "B"] "B" (by decide) (by decide)

/-- Claim C5 (counterexample): the write/read round trip is not exact for
every entry list.  A text entry whose payload is not valid UTF-8 is
serialized as its decoded string (with U+FFFD replacements) and read back
re-encoded: the byte 255 comes back as the three UTF-8 bytes of U+FFFD, so
the resulting entry set differs from the original. -/
theorem claim5_counterexample :
    Registry.read (Registry.write [entryBad])
      = [⟨"text/plain", [239, 191, 189], false⟩] ∧
    (⟨"text/plain", [239, 191, 189], false⟩ : ClipboardEntry) ≠ entryBad := by
  decide

/-- Claim C5 (amended): `write` then `read` reproduces the entry list
exactly (same mimeType, payload bytes and favorite flag, in the same
order) whenever every entry is well formed and every text entry's payload
is valid UTF-8; image and other non-text entries round-trip
unconditionally. -/
theorem claim5_roundtrip (l : List ClipboardEntry)
    (hwf : ∀ e ∈ l, entryWF e)
    (htext : ∀ e ∈ l, e.isText = true → ∃ s : List Char, e.bytes = utf8Encode s) :
    Registry.read (Registry.write l) = l :=
  read_write l hwf htext

/-- Claim C5 witness: a text entry and an image entry round-trip. -/
theorem claim5_roundtrip_witness :
    Registry.read (Registry.write [entryA, entryImg]) = [entryA, entryImg] :=
  claim5_roundtrip [entryA, entryImg] (by decide) (by
    intro e he ht
    simp only [List.mem_cons, List.not_mem_nil, or_false] at he
    rcases he with rfl | rfl
    · exact ⟨['a'], by decide⟩
    · exact absurd ht (by decide))

/-- Claim C6: starting from a history without duplicate text projections
(the workspace invariant), two `addOrPromote` calls whose candidates have
equal text projections leave exactly one stored entry with that
projection — the second call promotes instead of inserting a duplicate. -/
theorem claim6_dedup_idempotent (ml : Nat) (mf : Bool) (s : List ClipboardEntry)
    (e1 e2 : ClipboardEntry) (hnd : nodupProj s)
    (hproj : e1.getStringValue = e2.getStringValue) :
    projCount e1.getStringValue
      (addOrPromote ml mf e2 (addOrPromote ml mf e1 s)) = 1 := by
  obtain ⟨hnd1, -⟩ := addOrPromote_proj ml mf e1 s hnd
  obtain ⟨-, hc2⟩ := addOrPromote_proj ml mf e2 (addOrPromote ml mf e1 s) hnd1
  rw [hproj]
  exact hc2

/-- Claim C6 witness: adding the same entry twice to an empty history
stores it exactly once. -/
theorem claim6_dedup_idempotent_witness :
    nodupProj [] ∧
    projCount entryA.getStringValue
      (addOrPromote 15 false entryA (addOrPromote 15 false entryA [])) = 1 :=
  ⟨List.Pairwise.nil,
   claim6_dedup_idempotent 15 false [] entryA entryA List.Pairwise.nil rfl⟩

/-- Claim C7: the dedup relation `equals` holds exactly when the text
projections (`getStringValue`) coincide; the projection of an image entry
is the synthetic marker built from the kind and the payload byte length,
that of a text entry is the verbatim decoded payload; consequently two
image entries with equal byte length are identified regardless of their
contents. -/
theorem claim7_equality_iff_projection (a b : ClipboardEntry) :
    (a.equals b = true ↔ a.getStringValue = b.getStringValue) ∧
    (a.isImage = true →
      a.getStringValue = "[Image " ++ toString a.bytes.length ++ "]") ∧
    (a.isText = true → a.getStringValue = String.mk (utf8Decode a.bytes)) ∧
    (a.isImage = true → b.isImage = true → a.bytes.length = b.bytes.length →
      a.equals b = true) := by
  refine ⟨?_, ?_, ?_, ?_⟩
  · rw [ClipboardEntry.equals_eq, beq_iff_eq]
  · intro himg
    rw [ClipboardEntry.getStringValue, if_pos himg]
  · intro ht
    have himg := ClipboardEntry.isText_isImage_false a ht
    rw [ClipboardEntry.getStringValue, if_neg (by rw [himg]; exact Bool.false_ne_true)]
  · intro ha hb hlen
    rw [ClipboardEntry.equals_eq]
    apply beq_iff_eq.mpr
    rw [ClipboardEntry.getStringValue, if_pos ha,
      ClipboardEntry.getStringValue, if_pos hb, hlen]

/-- Claim C7 witness: instantiated at a PNG and a JPEG entry of equal byte
length and different contents. -/
theorem claim7_equality_iff_projection_witness :
    (entryImg.equals entryImg2 = true ↔
      entryImg.getStringValue = entryImg2.getStringValue) ∧
    (entryImg.isImage = true →
      entryImg.getStringValue = "[Image " ++ toString entryImg.bytes.length ++ "]") ∧
    (entryImg.isText = true →
      entryImg.getStringValue = String.mk (utf8Decode entryImg.bytes)) ∧
    (entryImg.isImage = true → entryImg2.isImage = true →
      entryImg.bytes.length = entryImg2.bytes.length →
      entryImg.equals entryImg2 = true) :=
  claim7_equality_iff_projection entryImg entryImg2

/-- Claim C8: after toggling favorite on the oldest non-favorite entry,
no later sequence of `maxLength` pairwise-distinct insertions evicts the
now-favorite entry — `_removeOldestEntries` only ever removes items whose
favorite flag is false. -/
theorem claim8_favorite_exempt (ml : Nat) (mf : Bool) (s : List ClipboardEntry)
    (i : Nat) (e : ClipboardEntry)
    (hml : 0 < ml)
    (hget : s[i]? = some e)
    (hnf : e.favorite = false)
    (holdest : ∀ j, j < i → ∀ e2, s[j]? = some e2 → e2.favorite = true)
    (es : List ClipboardEntry)
    (hlen : es.length = ml)
    (hdist : es.Pairwise (fun a b => a.getStringValue ≠ b.getStringValue)) :
    { e with favorite := true } ∈
      es.foldl (fun acc c => addOrPromote ml mf c acc) (toggleFavoriteAt s i) := by
  have hmem : { e with favorite := true } ∈ toggleFavoriteAt s i := by
    unfold toggleFavoriteAt
    rw [hget]
    dsimp only
    rw [hnf]
    exact List.mem_append_right _ (List.mem_singleton.mpr rfl)
  exact mem_foldl_addOrPromote_of_fav ml mf es (toggleFavoriteAt s i)
    { e with favorite := true } hmem rfl

/-- Claim C8 witness: with `maxLength = 1`, the toggled entry survives the
insertion of one fresh entry. -/
theorem claim8_favorite_exempt_witness :
    (0 < 1 ∧ ([entryA] : List ClipboardEntry)[0]? = some entryA ∧
      entryA.favorite = false ∧ ([entryB] : List ClipboardEntry).length = 1) ∧
    { entryA with favorite := true } ∈
      [entryB].foldl (fun acc c => addOrPromote 1 false c acc)
        (toggleFavoriteAt [entryA] 0) :=
  ⟨by decide,
   claim8_favorite_exempt 1 false [entryA] 0 entryA (by decide) (by decide)
     (by decide) (fun j hj e2 _ => absurd hj (Nat.not_lt_zero j)) [entryB] rfl
     (List.pairwise_singleton _ _)⟩

/-- With the cache-only-favorites option off, `_updateCache` persists the
in-memory list unchanged. -/
theorem updateCacheEntries_false (l : List ClipboardEntry) :
    updateCacheEntries false l = l := by
  unfold updateCacheEntries
  have hp : (fun e : ClipboardEntry => (false == false) || e.favorite)
      = fun _ => true := by
    funext e
    rfl
  rw [hp, List.filter_true]

/-- Claim C9: with the cache-only-favorites option off, switching away
from the active workspace `w1` first persists its in-memory entries to
`w1`'s manifest, moves the active pointer to the target and persists the
configuration, and loads the in-memory list from the target's manifest —
so entries held in memory under `w1` are gone after switching to `w2`
(unless already stored under `w2`) and are restored by switching back;
an unknown target name falls back to the first configured workspace. -/
theorem claim9_switch_isolation (s : SwitchState) (w1 w2 : String)
    (hactive : s.active = w1)
    (hw1 : s.workspaces.contains w1 = true)
    (hw2 : s.workspaces.contains w2 = true)
    (hne : w1 ≠ w2)
    (hwf : ∀ e ∈ s.items, entryWF e)
    (htext : ∀ e ∈ s.items, e.isText = true → ∃ t : List Char, e.bytes = utf8Encode t) :
    ((switchWorkspace false w2 s).disk w1 = Registry.write s.items) ∧
    ((switchWorkspace false w2 s).active = w2) ∧
    ((switchWorkspace false w2 s).configSaves
      = s.configSaves ++ [(s.workspaces, w2)]) ∧
    ((switchWorkspace false w2 s).items = Registry.read (s.disk w2)) ∧
    ((switchWorkspace false w1 (switchWorkspace false w2 s)).items = s.items) ∧
    (∀ n, s.workspaces.contains n = false →
      switchWorkspace false n s
        = switchWorkspace false (s.workspaces.headD "") s) := by
  have hupd := updateCacheEntries_false
  have hs1 : switchWorkspace false w2 s =
      { disk := diskWrite s.disk s.active (Registry.write s.items)
        workspaces := s.workspaces
        active := w2
        items := Registry.read (s.disk w2)
        configSaves := s.configSaves ++ [(s.workspaces, w2)] } := by
    unfold switchWorkspace
    rw [hupd, hw2]
    have hdw : diskWrite s.disk s.active (Registry.write s.items) w2 = s.disk w2 := by
      unfold diskWrite
      rw [hactive, if_neg (fun h => hne h.symm)]
    simp only [if_true, hdw]
  have hdw1 : diskWrite s.disk s.active (Registry.write s.items) w1
      = Registry.write s.items := by
    unfold diskWrite
    rw [hactive, if_pos rfl]
  refine ⟨?_, ?_, ?_, ?_, ?_, ?_⟩
  · rw [hs1]
    exact hdw1
  · rw [hs1]
  · rw [hs1]
  · rw [hs1]
  · rw [hs1]
    unfold switchWorkspace
    rw [hupd, hw1]
    simp only [if_true]
    have hdw2 : diskWrite (diskWrite s.disk s.active (Registry.write s.items)) w2
        (Registry.write (Registry.read (s.disk w2))) w1
        = Registry.write s.items := by
      unfold diskWrite
      rw [if_neg hne, hactive, if_pos rfl]
    rw [hdw2]
    exact read_write s.items hwf htext
  · intro n hn
    unfold switchWorkspace
    rw [hn]
    simp only [Bool.false_eq_true, if_false, ite_self]

/-- Claim C9 witness: a two-workspace state with one in-memory text entry
round-trips through a switch to `W2` and back. -/
theorem claim9_switch_isolation_witness :
    ((switchWorkspace false "W2"
        ⟨fun _ => [], ["W1", "W2"], "W1", [entryA], []⟩).items
      = Registry.read ((fun _ => ([] : List ManifestRecord)) "W2")) ∧
    ((switchWorkspace false "W1" (switchWorkspace false "W2"
        ⟨fun _ => [], ["W1", "W2"], "W1", [entryA], []⟩)).items
      = [entryA]) := by
  have h := claim9_switch_isolation ⟨fun _ => [], ["W1", "W2"], "W1", [entryA], []⟩
    "W1" "W2" rfl (by decide) (by decide) (by decide) (by decide)
    (by
      intro e he ht
      simp only [List.mem_singleton] at he
      subst he
      exact ⟨['a'], by decide⟩)
  exact ⟨h.2.2.2.1, h.2.2.2.2.1⟩

/-- Claim C10: `ClipboardEntry` construction is total and normalizing — a
falsy mimetype becomes `text/plain` and a non-empty one is kept; a string
payload is stored as its UTF-8 encoding, an array element-wise as bytes, a
`Uint8Array` verbatim, any other shape as the empty sequence; the favorite
flag is the strict-boolean coercion of the argument. -/
theorem claim10_constructor_total (mt : Option String) (p : JsPayload) (f : JsVal) :
    ((mt = none ∨ mt = some "") →
      (mkClipboardEntry mt p f).mimetype = "text/plain") ∧
    (∀ s, s ≠ "" → mt = some s → (mkClipboardEntry mt p f).mimetype = s) ∧
    (∀ s, p = JsPayload.str s →
      (mkClipboardEntry mt p f).bytes = utf8Encode s.data) ∧
    (∀ a, p = JsPayload.arr a →
      (mkClipboardEntry mt p f).bytes = a.map (fun n => (n % 256).toNat)) ∧
    (∀ a, p = JsPayload.u8 a → (mkClipboardEntry mt p f).bytes = a) ∧
    (p = JsPayload.other → (mkClipboardEntry mt p f).bytes = []) ∧
    ((mkClipboardEntry mt p f).favorite = truthy f) := by
  refine ⟨?_, ?_, ?_, ?_, ?_, ?_, rfl⟩
  · rintro (rfl | rfl) <;> rfl
  · rintro s hs rfl
    show (if s = "" then "text/plain" else s) = s
    rw [if_neg hs]
  · rintro s rfl
    rfl
  · rintro a rfl
    rfl
  · rintro a rfl
    rfl
  · rintro rfl
    rfl

/-- Claim C10 witness: a text/html string payload with a truthy numeric
favorite argument. -/
theorem claim10_constructor_total_witness :
    (mkClipboardEntry (some "text/html") (JsPayload.str "a")
        (JsVal.vNum 3)).mimetype = "text/html" ∧
    (mkClipboardEntry (some "text/html") (JsPayload.str "a")
        (JsVal.vNum 3)).bytes = utf8Encode "a".data ∧
    (mkClipboardEntry (some "text/html") (JsPayload.str "a")
        (JsVal.vNum 3)).favorite = truthy (JsVal.vNum 3) :=
  ⟨(claim10_constructor_total (some "text/html") (JsPayload.str "a")
      (JsVal.vNum 3)).2.1 "text/html" (by decide) rfl,
   (claim10_constructor_total (some "text/html") (JsPayload.str "a")
      (JsVal.vNum 3)).2.2.1 "a" rfl,
   (claim10_constructor_total (some "text/html") (JsPayload.str "a")
      (JsVal.vNum 3)).2.2.2.2.2.2⟩
